import Mathlib

/-!
# Verification of the HTTP/3 connection and Settings-codec core

Shallow embedding of the `http3` package (files `errors.go` and `conn.go`):
the Settings frame codec (`Settings.WriteFrame`, `Settings.UnmarshalFrame`,
`ReadSettingsFrame`), the connection's incoming-unidirectional-stream
dispatch (`handleIncomingUniStream`), the control-stream handshake
(`handleControlStream`, `PeerSettings`), the bidirectional stream entry
points (`AcceptStream`, `OpenStream`), and the error value taxonomy.

Byte slices are `List Nat` (each element a byte value), `uint64` values are
`Nat`, and the Go `Settings` map is an association list `List (Nat × Nat)`
in map-iteration order (Go map iteration order is unspecified, so functions
that iterate a map take the iteration order as their input list order).
-/

set_option maxRecDepth 8192

namespace HTTP3

/-! ## Variable-length integer codec

Modelled from the spec: the varint primitive (package `quicvarint`) is an
external collaborator, not under `src/`.  The spec requires reading/writing
one variable-length unsigned integer and computing its encoded length; the
encoding is the QUIC variable-length integer format the transport uses: the
top two bits of the first byte select a 1-, 2-, 4- or 8-byte big-endian
encoding whose remaining bits carry the value. -/

/-- Modelled from the spec: `quicvarint.Read` — reads one varint from the
front of a byte list, returning the value and the unconsumed remainder, or
`none` on a truncated/empty input. -/
def readVarint : List Nat → Option (Nat × List Nat)
  | [] => none
  | b :: rest =>
    if b / 64 = 0 then some (b % 64, rest)
    else if b / 64 = 1 then
      match rest with
      | b2 :: r => some ((b % 64) * 256 + b2, r)
      | [] => none
    else if b / 64 = 2 then
      match rest with
      | b2 :: b3 :: b4 :: r =>
          some ((((b % 64) * 256 + b2) * 256 + b3) * 256 + b4, r)
      | _ => none
    else
      match rest with
      | b2 :: b3 :: b4 :: b5 :: b6 :: b7 :: b8 :: r =>
          some ((((((((b % 64) * 256 + b2) * 256 + b3) * 256 + b4) * 256 + b5)
            * 256 + b6) * 256 + b7) * 256 + b8, r)
      | _ => none

/-- Modelled from the spec: `quicvarint.Len` — the encoded byte length of a
value (1, 2, 4 or 8). -/
def varintLen (v : Nat) : Nat :=
  if v ≤ 63 then 1
  else if v ≤ 16383 then 2
  else if v ≤ 1073741823 then 4
  else 8

/-- Modelled from the spec: `quicvarint.Write` — the byte encoding of a
value below `2 ^ 62` (Go panics above that bound; no caller here reaches
it). -/
def writeVarint (v : Nat) : List Nat :=
  if v ≤ 63 then [v]
  else if v ≤ 16383 then [64 + v / 256, v % 256]
  else if v ≤ 1073741823 then
    [128 + v / 16777216, v / 65536 % 256, v / 256 % 256, v % 256]
  else
    [192 + v / 72057594037927936,
     v / 281474976710656 % 256, v / 1099511627776 % 256, v / 4294967296 % 256,
     v / 16777216 % 256, v / 65536 % 256, v / 256 % 256, v % 256]

/-- A successful varint read consumes at least one byte. -/
theorem readVarint_lt {bs : List Nat} {v : Nat} {r : List Nat}
    (h : readVarint bs = some (v, r)) : r.length < bs.length := by
  cases bs with
  | nil => simp [readVarint] at h
  | cons b rest =>
    simp only [readVarint] at h
    split at h
    · obtain ⟨rfl, rfl⟩ := Prod.mk.injEq .. ▸ Option.some.injEq .. ▸ h
      simp
    · split at h
      · cases rest with
        | nil => simp at h
        | cons b2 r2 =>
          obtain ⟨rfl, rfl⟩ := Prod.mk.injEq .. ▸ Option.some.injEq .. ▸ h
          simp; omega
      · split at h
        · match rest, h with
          | b2 :: b3 :: b4 :: r4, h =>
            obtain ⟨rfl, rfl⟩ := Prod.mk.injEq .. ▸ Option.some.injEq .. ▸ h
            simp; omega
        · match rest, h with
          | b2 :: b3 :: b4 :: b5 :: b6 :: b7 :: b8 :: r8, h =>
            obtain ⟨rfl, rfl⟩ := Prod.mk.injEq .. ▸ Option.some.injEq .. ▸ h
            simp; omega

/-! ## Settings maps

`type Settings map[Setting]uint64` — modelled as an association list of
`(id, value)` pairs in map-iteration order. -/

/-- The Go `Settings` map, as an association list in iteration order. -/
abbrev SettingsL := List (Nat × Nat)

/-- Go map assignment `m[id] = v`: replaces the value when the key is
present, otherwise appends the new pair. -/
def mapSet (m : SettingsL) (id v : Nat) : SettingsL :=
  if (List.lookup id m).isSome then
    m.map fun p => if p.1 = id then (id, v) else p
  else m ++ [(id, v)]

/-- `SettingDatagram = 0xffd276` (errors.go). -/
def settingDatagram : Nat := 0xffd276

/-- `SettingDatagramDraft00 = 0x276` (errors.go). -/
def settingDatagramDraft00 : Nat := 0x276

/-! ## Settings frame decode (errors.go)

`DecErr` distinguishes the decode failures of `Settings.UnmarshalFrame` /
`ReadSettingsFrame`: the oversized-payload error (carrying the offending
length, as the `fmt.Errorf` does), a varint read failure, the io.EOF result
of a short read, and the duplicate-setting error (carrying the id). -/

inductive DecErr where
  | frameSize (n : Nat)
  | varintErr
  | eof
  | duplicate (id : Nat)
deriving DecidableEq, Repr

/-- The shared pair-reading loop of `Settings.UnmarshalFrame` and
`ReadSettingsFrame`: while bytes remain, read an id varint and a value
varint, fail on a repeated id, otherwise store the pair. -/
def readSettingsLoop (bytes : List Nat) (s : SettingsL) : Except DecErr SettingsL :=
  if bytes.isEmpty then .ok s
  else
    match h1 : readVarint bytes with
    | none => .error .varintErr
    | some (id, r1) =>
      match h2 : readVarint r1 with
      | none => .error .varintErr
      | some (val, r2) =>
        if (List.lookup id s).isSome then .error (.duplicate id)
        else readSettingsLoop r2 (mapSet s id val)
termination_by bytes.length
decreasing_by
  exact Nat.lt_trans (readVarint_lt h2) (readVarint_lt h1)

/-- `ReadSettingsFrame(r, l)`: reject `l > 8*(1<<10)`, read exactly `l`
bytes from the reader (a short read maps to EOF), then run the pair loop on
the buffer.  Returns the unconsumed remainder of the reader alongside the
result, so that theorems can speak about what was read. -/
def readSettingsFrame (stream : List Nat) (l : Nat) :
    List Nat × Except DecErr SettingsL :=
  if l > 8 * 1024 then (stream, .error (.frameSize l))
  else if stream.length < l then ([], .error .eof)
  else (stream.drop l, readSettingsLoop (stream.take l) [])

/-! ## Settings.UnmarshalFrame (errors.go)

Go maps are reference values: the receiver `s` of
`func (s Settings) UnmarshalFrame(b []byte) error` is a local copy of the
map handle.  The statement `*(&s) = Settings\x7b\x7d` takes the address of
that local copy and overwrites it, i.e. it rebinds the local handle to a
fresh empty map; every later `s[id] = val` writes through the rebound local
handle.  `LocalRef` records which map the local variable currently
references: the caller's map, or a fresh map with the given contents. -/

inductive LocalRef where
  | caller
  | fresh (content : SettingsL)
deriving DecidableEq, Repr

/-- The memory visible during `UnmarshalFrame`: the contents of the
caller's map, and the map the local variable `s` currently references. -/
structure UFState where
  callerMap : SettingsL
  localRef : LocalRef
deriving DecidableEq, Repr

/-- Reading the map the local variable references. -/
def readLocal : UFState → SettingsL
  | ⟨m, .caller⟩ => m
  | ⟨_, .fresh c⟩ => c

/-- `s[id] = val` through the local handle: mutates whichever map the local
variable references. -/
def writeLocal (st : UFState) (id val : Nat) : UFState :=
  match st.localRef with
  | .caller => ⟨mapSet st.callerMap id val, .caller⟩
  | .fresh c => ⟨st.callerMap, .fresh (mapSet c id val)⟩

/-- The pair-reading loop of `Settings.UnmarshalFrame`, acting on the local
map handle.  Returns the final memory state and `some` error or `none`. -/
def unmarshalLoop (st : UFState) (bytes : List Nat) : UFState × Option DecErr :=
  if bytes.isEmpty then (st, none)
  else
    match h1 : readVarint bytes with
    | none => (st, some .varintErr)
    | some (id, r1) =>
      match h2 : readVarint r1 with
      | none => (st, some .varintErr)
      | some (val, r2) =>
        if (List.lookup id (readLocal st)).isSome then (st, some (.duplicate id))
        else unmarshalLoop (writeLocal st id val) r2
termination_by bytes.length
decreasing_by
  exact Nat.lt_trans (readVarint_lt h2) (readVarint_lt h1)

/-- `Settings.UnmarshalFrame(b)`: reject `len(b) > 8*(1<<10)`; execute
`*(&s) = Settings\x7b\x7d`, rebinding the local handle to a fresh empty
map; then run the pair loop.  The first component of the result is the
final memory state (whose `callerMap` is what the caller observes). -/
def unmarshalFrame (receiver : SettingsL) (b : List Nat) : UFState × Option DecErr :=
  if b.length > 8 * 1024 then (⟨receiver, .caller⟩, some (.frameSize b.length))
  else unmarshalLoop ⟨receiver, .fresh []⟩ b

/-! ## Settings.WriteFrame and FrameLength (errors.go) -/

/-- `Settings.FrameLength()`: sum of the varint lengths of every id and
value, following the map's iteration order. -/
def frameLength (s : SettingsL) : Nat :=
  (s.map fun p => varintLen p.1 + varintLen p.2).sum

/-- The `sort.Slice(ids, func(i, j int) bool \x7b return i < j \x7d)` call of
`Settings.WriteFrame`: the comparator compares the integer indices `i` and
`j` themselves, never the elements `ids[i]` and `ids[j]`, so under it the
slice is already sorted in whatever order it has and the sort leaves the
order unchanged. -/
def sortSliceByIndex (ids : List Nat) : List Nat := ids

/-- Map indexing `s[id]` (the zero value when absent; `WriteFrame` only
indexes keys obtained from the map itself). -/
def mapIndex (s : SettingsL) (id : Nat) : Nat := (List.lookup id s).getD 0

/-- The id/value-pair portion of the bytes `Settings.WriteFrame` emits:
ids collected in map-iteration order, "sorted" by the index comparator,
then each id and its value as varints. -/
def settingsFramePayload (s : SettingsL) : List Nat :=
  ((sortSliceByIndex (s.map Prod.fst)).map fun id =>
    writeVarint id ++ writeVarint (mapIndex s id)).flatten

/-- `Settings.WriteFrame(w)`: type varint (`FrameTypeSettings = 0x4`),
length varint, then the pairs. -/
def settingsWriteFrame (s : SettingsL) : List Nat :=
  writeVarint 4 ++ writeVarint (frameLength s) ++ settingsFramePayload s

/-! ## Spec-side parse trace

The sequence of id/value pairs a payload denotes, read with the same varint
reader and pair structure as the decode loops but with no duplicate check:
used to state which payloads "contain the same setting id in two pairs". -/

/-- The id/value pairs encoded in a payload, or `none` if a varint is
truncated. -/
def parsePairs (bytes : List Nat) : Option (List (Nat × Nat)) :=
  if bytes.isEmpty then some []
  else
    match h1 : readVarint bytes with
    | none => none
    | some (id, r1) =>
      match h2 : readVarint r1 with
      | none => none
      | some (val, r2) => (parsePairs r2).map fun l => (id, val) :: l
termination_by bytes.length
decreasing_by
  exact Nat.lt_trans (readVarint_lt h2) (readVarint_lt h1)

/-! ## Error codes (errors.go) -/

def errorNoError : Nat := 0x100
def errorGeneralProtocolError : Nat := 0x101
def errorInternalError : Nat := 0x102
def errorStreamCreationError : Nat := 0x103
def errorClosedCriticalStream : Nat := 0x104
def errorFrameUnexpected : Nat := 0x105
def errorFrameError : Nat := 0x106
def errorExcessiveLoad : Nat := 0x107
def errorIDError : Nat := 0x108
def errorSettingsError : Nat := 0x109
def errorMissingSettings : Nat := 0x10a
def errorRequestRejected : Nat := 0x10b
def errorRequestCanceled : Nat := 0x10c
def errorRequestIncomplete : Nat := 0x10d
def errorMessageError : Nat := 0x10e
def errorConnectError : Nat := 0x10f
def errorVersionFallback : Nat := 0x110
def errorWebTransportBufferedStreamRejected : Nat := 0x3994bd84

/-- `func (e errorCode) String() string` (errors.go): the canonical name of
each catalogued code; unknown codes render with their hex value. -/
def errorCodeString (e : Nat) : String :=
  if e = errorNoError then "H3_NO_ERROR"
  else if e = errorGeneralProtocolError then "H3_GENERAL_PROTOCOL_ERROR"
  else if e = errorInternalError then "H3_INTERNAL_ERROR"
  else if e = errorStreamCreationError then "H3_STREAM_CREATION_ERROR"
  else if e = errorClosedCriticalStream then "H3_CLOSED_CRITICAL_STREAM"
  else if e = errorFrameUnexpected then "H3_FRAME_UNEXPECTED"
  else if e = errorFrameError then "H3_FRAME_ERROR"
  else if e = errorExcessiveLoad then "H3_EXCESSIVE_LOAD"
  else if e = errorIDError then "H3_ID_ERROR"
  else if e = errorSettingsError then "H3_SETTINGS_ERROR"
  else if e = errorMissingSettings then "H3_MISSING_SETTINGS"
  else if e = errorRequestRejected then "H3_REQUEST_REJECTED"
  else if e = errorRequestCanceled then "H3_REQUEST_CANCELLED"
  else if e = errorRequestIncomplete then "H3_INCOMPLETE_REQUEST"
  else if e = errorMessageError then "H3_MESSAGE_ERROR"
  else if e = errorConnectError then "H3_CONNECT_ERROR"
  else if e = errorVersionFallback then "H3_VERSION_FALLBACK"
  else if e = errorWebTransportBufferedStreamRejected then
    "H3_WEBTRANSPORT_BUFFERED_STREAM_REJECTED"
  else "unknown error code: 0x" ++ String.mk (Nat.toDigits 16 e)

/-! ## Error values (errors.go)

The four error value kinds.  `FrameType`'s `String()` rendering lives in a
file outside `src/`, so the message functions take the already-rendered
frame-type strings as arguments; a wrapped cause is represented by its
`Error()` string. -/

/-- `frameTypeError.Error()`:
`fmt.Sprintf("unexpected frame type %s, expected %s", err.Type, err.Want)`. -/
def frameTypeErrorMsg (typeStr wantStr : String) : String :=
  "unexpected frame type " ++ typeStr ++ ", expected " ++ wantStr

/-- `frameLengthError.Error()`:
`fmt.Sprintf("%s frame too large: %d bytes (max: %d)", ...)`. -/
def frameLengthErrorMsg (frameTypeStr : String) (length maxLen : Nat) : String :=
  frameTypeStr ++ " frame too large: " ++ toString length
    ++ " bytes (max: " ++ toString maxLen ++ ")"

/-- `connError.Error()`:
`fmt.Sprintf("connection error %s: %s", err.Code, err.Err)`. -/
def connErrorMsg (code : Nat) (cause : String) : String :=
  "connection error " ++ errorCodeString code ++ ": " ++ cause

/-- `streamError.Error()`:
`fmt.Sprintf("stream error %s: %s", err.Code, err.Err)`. -/
def streamErrorMsg (code : Nat) (cause : String) : String :=
  "stream error " ++ errorCodeString code ++ ": " ++ cause

/-- The four error value kinds of errors.go, with their fields.
`frameTypeE` carries Want/Type/Len, `frameLengthE` carries
FrameType/Length/Max (no cause field in either); `connE` and `streamE`
carry a code and the wrapped cause. -/
inductive H3ErrVal where
  | frameTypeE (want typ len : Nat)
  | frameLengthE (frameType length maxLen : Nat)
  | connE (code : Nat) (cause : String)
  | streamE (code : Nat) (cause : String)
deriving DecidableEq, Repr

/-- Go's `errors.Unwrap`: yields the wrapped cause when the value's type
has an `Unwrap` method (`connError` and `streamError` do), and `nil`
(here `none`) otherwise — `frameTypeError` and `frameLengthError` declare
no `Unwrap` method and have no cause field. -/
def errorsUnwrap : H3ErrVal → Option String
  | .connE _ cause => some cause
  | .streamE _ cause => some cause
  | .frameTypeE _ _ _ => none
  | .frameLengthE _ _ _ => none

/-! ## Connection model (conn.go)

The `connection` struct's mutable state, as observed sequentially by one
handler invocation at a time (the `peerStreamsMutex` serialises the only
shared-array access).  The embedded `quic.EarlySession` is represented by
the fields the handlers consult: whether the session has been closed (and
with which code/message), and whether transport datagram support was
negotiated.  Closing the session cancels its lifetime context (spec §6),
so "context done" is `closed.isSome`. -/

/-- A `readableStream`: the underlying receive stream (identified by a
numeric id) decorated with its declared stream type.  The back-reference
to the owning connection is implicit. -/
structure RecStream where
  sid : Nat
  typ : Nat
deriving DecidableEq, Repr

/-- The diagnostic messages `conn.go` passes to `CloseWithError`, in
structured form (the `%s` renderings of `StreamType` live outside `src/`).
`moreThanOne t` is `fmt.Sprintf("more than one %s opened", t)`;
`spuriousPush t` is `fmt.Sprintf("spurious %s from client", t)`;
`missingDatagrams` is "missing QUIC Datagram support"; `empty` is `""`. -/
inductive CloseMsg where
  | empty
  | moreThanOne (t : Nat)
  | spuriousPush (t : Nat)
  | missingDatagrams
deriving DecidableEq, Repr

/-- The mutable state of a `connection` plus the session facts the
handlers read. -/
structure ConnSt where
  isServer : Bool
  supportsDatagrams : Bool
  peerStreams : Nat → Option RecStream
  closed : Option (Nat × CloseMsg)
  cancels : List (Nat × Nat)
  queue : List RecStream
  peerSettingsDone : Bool
  peerSettings : SettingsL
  peerSettingsErr : Option Nat

/-- `conn.CloseWithError(code, msg)`: closes the whole session; a no-op on
an already-closed session. -/
def closeWithError (c : ConnSt) (code : Nat) (msg : CloseMsg) : ConnSt :=
  if c.closed.isSome then c else { c with closed := some (code, msg) }

/-- Modelled from the spec: `Settings.DatagramsEnabled` is not under
`src/`; per the spec, the primary id and the legacy/draft alias id both
mean "HTTP-layer datagram support is enabled" when present with value 1
(or any nonzero value). -/
def datagramsEnabled (s : SettingsL) : Bool :=
  (List.lookup settingDatagram s).getD 0 ≠ 0
    ∨ (List.lookup settingDatagramDraft00 s).getD 0 ≠ 0

/-- What `parseNextFrame` hands `handleControlStream`: a parse failure, a
decoded Settings frame, or some frame that is not a Settings frame (the
type assertion `f.(Settings)` fails). -/
inductive FrameParseRes where
  | parseErr
  | settings (s : SettingsL)
  | notSettings
deriving DecidableEq, Repr

/-- Modelled from the spec: `parseNextFrame` is not under `src/`; per the
spec it reads a type varint, a length varint, then exactly that many
payload bytes, dispatching to the matching frame's unmarshal (Settings for
type 0x4, with its 8 KiB cap) and surfacing unrecognized types distinctly
— which the control-stream handler's type assertion then treats as
not-Settings. -/
def parseNextFrame (bytes : List Nat) : FrameParseRes :=
  match readVarint bytes with
  | none => .parseErr
  | some (t, r1) =>
    match readVarint r1 with
    | none => .parseErr
    | some (l, r2) =>
      if r2.length < l then .parseErr
      else if t = 4 then
        match readSettingsFrame r2 l with
        | (_, .ok s) => .settings s
        | (_, .error _) => .parseErr
      else .notSettings

/-- `conn.handleControlStream(str)` (conn.go): parse one frame; a parse
failure closes the connection with `frame-error`; a non-Settings first
frame closes it with `missing-settings` and records that error; a Settings
frame claiming datagram support without transport datagram support closes
it with `settings-error` and records that error; otherwise the peer
settings are stored and the one-shot done channel is closed.  Note the two
failure paths record `peerSettingsErr` but never close `peerSettingsDone`. -/
def handleControlStream (c : ConnSt) (f : FrameParseRes) : ConnSt :=
  match f with
  | .parseErr => closeWithError c errorFrameError .empty
  | .notSettings =>
    let c1 := closeWithError c errorMissingSettings .empty
    { c1 with peerSettingsErr := some errorMissingSettings }
  | .settings s =>
    if datagramsEnabled s ∧ ¬c.supportsDatagrams then
      let c1 := closeWithError c errorSettingsError .missingDatagrams
      { c1 with peerSettingsErr := some errorSettingsError }
    else
      { c with peerSettings := s, peerSettingsDone := true }

/-- The `switch str.streamType` dispatch at the end of
`handleIncomingUniStream`: control streams run the control-stream handler,
a push stream closes a server connection with `stream-creation-error` and
is a TODO (no further action) on a client, the QPACK types are TODOs, and
any other type is sent to the `incomingUniStreams` channel. -/
def dispatchTyped (c : ConnSt) (str : RecStream) (rest : List Nat) : ConnSt :=
  if str.typ = 0 then handleControlStream c (parseNextFrame rest)
  else if str.typ = 1 then
    if c.isServer then closeWithError c errorStreamCreationError (.spuriousPush str.typ)
    else c
  else if str.typ = 2 ∨ str.typ = 3 then c
  else { c with queue := c.queue ++ [str] }

/-- `conn.handleIncomingUniStream(qstr)` (conn.go): read the leading type
varint (a failure cancels just that stream with
`general-protocol-error`); for a reserved type (< 4), close the whole
connection with `stream-creation-error` if the slot is occupied, else
record the stream in the slot; then dispatch by type. -/
def handleIncomingUniStream (c : ConnSt) (sid : Nat) (bytes : List Nat) : ConnSt :=
  match readVarint bytes with
  | none => { c with cancels := (sid, errorGeneralProtocolError) :: c.cancels }
  | some (t, rest) =>
    let str : RecStream := ⟨sid, t⟩
    if t < 4 then
      if (c.peerStreams t).isSome then
        closeWithError c errorStreamCreationError (.moreThanOne t)
      else
        let c1 := { c with peerStreams := fun u => if u = t then some str else c.peerStreams u }
        dispatchTyped c1 str rest
    else dispatchTyped c str rest

/-- The possible outcomes of one `PeerSettings()` call. -/
inductive PSRes where
  | result (s : SettingsL) (e : Option Nat)
  | ctxError
deriving DecidableEq, Repr

/-- `conn.PeerSettings()` (conn.go): select on the done channel (returning
the stored peer settings and recorded error) and the session context
(returning the context's cancellation error once the session is closed);
`none` means neither case is ready and the call blocks.  When both are
ready Go picks either; only one is ever ready here because the failure
paths never close the done channel. -/
def peerSettingsCall (c : ConnSt) : Option PSRes :=
  if c.peerSettingsDone then some (.result c.peerSettings c.peerSettingsErr)
  else if c.closed.isSome then some .ctxError
  else none

/-! ## Bidirectional stream entry points (conn.go) -/

/-- Errors surfaced by the transport session itself. -/
inductive GoSessionErr where
  | sessionClosed
deriving DecidableEq, Repr

/-- The `bidiStream` wrapper `AcceptStream`/`OpenStream` return around a
transport stream (the connection back-reference is implicit). -/
structure BidiStream where
  sid : Nat
deriving DecidableEq, Repr

/-- Modelled from the spec: `quic.EarlySession.AcceptStream` — the
transport's bidirectional accept: fails once the session is closed, blocks
(`none`) while no incoming stream is pending, otherwise yields the next
pending stream.  Returns the remaining pending queue. -/
def sessionAcceptStream (closed : Bool) (pending : List Nat) :
    List Nat × Option (Except GoSessionErr Nat) :=
  if closed then (pending, some (.error .sessionClosed))
  else
    match pending with
    | [] => (pending, none)
    | i :: rest => (rest, some (.ok i))

/-- Modelled from the spec: `quic.EarlySession.OpenStream` — the
transport's synchronous bidirectional open: fails once the session is
closed, otherwise yields the next stream id. -/
def sessionOpenStream (closed : Bool) (next : Nat) : Except GoSessionErr Nat :=
  if closed then .error .sessionClosed else .ok next

/-- `conn.AcceptStream(ctx)` (conn.go): delegate to the transport's
accept; pass its error through; wrap a successful stream in `bidiStream`.
No perspective check of any kind. -/
def connAcceptStream (c : ConnSt) (pending : List Nat) :
    List Nat × Option (Except GoSessionErr BidiStream) :=
  match sessionAcceptStream c.closed.isSome pending with
  | (p, none) => (p, none)
  | (p, some (.error e)) => (p, some (.error e))
  | (p, some (.ok i)) => (p, some (.ok ⟨i⟩))

/-- `conn.OpenStream()` (conn.go): delegate to the transport's open; pass
its error through; wrap a successful stream in `bidiStream`.  No
perspective check of any kind. -/
def connOpenStream (c : ConnSt) (next : Nat) : Except GoSessionErr BidiStream :=
  match sessionOpenStream c.closed.isSome next with
  | .error e => .error e
  | .ok i => .ok ⟨i⟩

/-! ## Concrete connection states used by witnesses and counterexamples -/

/-- A freshly opened client-perspective connection over a session without
transport datagram support. -/
def clientConn : ConnSt where
  isServer := false
  supportsDatagrams := false
  peerStreams := fun _ => none
  closed := none
  cancels := []
  queue := []
  peerSettingsDone := false
  peerSettings := []
  peerSettingsErr := none

/-- A freshly opened server-perspective connection. -/
def serverConn : ConnSt := { clientConn with isServer := true }

/-- A connection that has already recorded an incoming control stream
(stream 7) in reserved slot 0. -/
def connWithControl : ConnSt :=
  { clientConn with peerStreams := fun u => if u = 0 then some ⟨7, 0⟩ else none }

/-! ## Helper lemmas: unfolding the decode loops one step at a time -/

/-- Projection of a decode result onto its error, for relating the two
loop embeddings. -/
def errOpt : Except DecErr SettingsL → Option DecErr
  | .ok _ => none
  | .error e => some e

theorem lookup_isSome_iff (id : Nat) (m : SettingsL) :
    (List.lookup id m).isSome ↔ id ∈ m.map Prod.fst := by
  induction m with
  | nil => simp [List.lookup]
  | cons p t ih =>
    obtain ⟨k, v⟩ := p
    by_cases hk : id = k
    · subst hk; simp [List.lookup]
    · have hbeq : (id == k) = false := by simp [hk]
      simp [List.lookup, hbeq, ih, hk]

theorem mapSet_lookup_none {m : SettingsL} {id : Nat}
    (h : (List.lookup id m).isSome = false) (v : Nat) :
    mapSet m id v = m ++ [(id, v)] := by
  simp [mapSet, h]

theorem rsl_nil (s : SettingsL) : readSettingsLoop [] s = .ok s := by
  rw [readSettingsLoop.eq_def]; simp

theorem rsl_err1 {bytes : List Nat} (hne : bytes ≠ [])
    (h1 : readVarint bytes = none) (s : SettingsL) :
    readSettingsLoop bytes s = .error .varintErr := by
  have hbe : bytes.isEmpty = false := by
    cases bytes
    · exact absurd rfl hne
    · rfl
  rw [readSettingsLoop.eq_def]
  simp only [hbe, Bool.false_eq_true, if_false]
  split
  · rfl
  · rename_i id' r1' heq
    simp [h1] at heq

theorem rsl_err2 {bytes r1 : List Nat} {id : Nat}
    (h1 : readVarint bytes = some (id, r1)) (h2 : readVarint r1 = none)
    (s : SettingsL) :
    readSettingsLoop bytes s = .error .varintErr := by
  have hne : bytes ≠ [] := by rintro rfl; simp [readVarint] at h1
  have hbe : bytes.isEmpty = false := by
    cases bytes
    · exact absurd rfl hne
    · rfl
  rw [readSettingsLoop.eq_def]
  simp only [hbe, Bool.false_eq_true, if_false]
  split
  · rename_i heq; simp [h1] at heq
  · rename_i id' r1' heq
    rw [h1] at heq
    simp only [Option.some.injEq, Prod.mk.injEq] at heq
    obtain ⟨rfl, rfl⟩ := heq
    split
    · rfl
    · rename_i val' r2' heq2
      simp [h2] at heq2

theorem rsl_step {bytes r1 r2 : List Nat} {id val : Nat}
    (h1 : readVarint bytes = some (id, r1)) (h2 : readVarint r1 = some (val, r2))
    (s : SettingsL) :
    readSettingsLoop bytes s =
      if (List.lookup id s).isSome then .error (.duplicate id)
      else readSettingsLoop r2 (mapSet s id val) := by
  have hne : bytes ≠ [] := by rintro rfl; simp [readVarint] at h1
  have hbe : bytes.isEmpty = false := by
    cases bytes
    · exact absurd rfl hne
    · rfl
  rw [readSettingsLoop.eq_def]
  simp only [hbe, Bool.false_eq_true, if_false]
  split
  · rename_i heq; simp [h1] at heq
  · rename_i id' r1' heq
    rw [h1] at heq
    simp only [Option.some.injEq, Prod.mk.injEq] at heq
    obtain ⟨rfl, rfl⟩ := heq
    split
    · rename_i heq2; simp [h2] at heq2
    · rename_i val' r2' heq2
      rw [h2] at heq2
      simp only [Option.some.injEq, Prod.mk.injEq] at heq2
      obtain ⟨rfl, rfl⟩ := heq2
      rfl

theorem uml_nil (st : UFState) : unmarshalLoop st [] = (st, none) := by
  rw [unmarshalLoop.eq_def]; simp

theorem uml_err1 {bytes : List Nat} (hne : bytes ≠ [])
    (h1 : readVarint bytes = none) (st : UFState) :
    unmarshalLoop st bytes = (st, some .varintErr) := by
  have hbe : bytes.isEmpty = false := by
    cases bytes
    · exact absurd rfl hne
    · rfl
  rw [unmarshalLoop.eq_def]
  simp only [hbe, Bool.false_eq_true, if_false]
  split
  · rfl
  · rename_i id' r1' heq
    simp [h1] at heq

theorem uml_err2 {bytes r1 : List Nat} {id : Nat}
    (h1 : readVarint bytes = some (id, r1)) (h2 : readVarint r1 = none)
    (st : UFState) :
    unmarshalLoop st bytes = (st, some .varintErr) := by
  have hne : bytes ≠ [] := by rintro rfl; simp [readVarint] at h1
  have hbe : bytes.isEmpty = false := by
    cases bytes
    · exact absurd rfl hne
    · rfl
  rw [unmarshalLoop.eq_def]
  simp only [hbe, Bool.false_eq_true, if_false]
  split
  · rename_i heq; simp [h1] at heq
  · rename_i id' r1' heq
    rw [h1] at heq
    simp only [Option.some.injEq, Prod.mk.injEq] at heq
    obtain ⟨rfl, rfl⟩ := heq
    split
    · rfl
    · rename_i val' r2' heq2
      simp [h2] at heq2

theorem uml_step {bytes r1 r2 : List Nat} {id val : Nat}
    (h1 : readVarint bytes = some (id, r1)) (h2 : readVarint r1 = some (val, r2))
    (st : UFState) :
    unmarshalLoop st bytes =
      if (List.lookup id (readLocal st)).isSome then (st, some (.duplicate id))
      else unmarshalLoop (writeLocal st id val) r2 := by
  have hne : bytes ≠ [] := by rintro rfl; simp [readVarint] at h1
  have hbe : bytes.isEmpty = false := by
    cases bytes
    · exact absurd rfl hne
    · rfl
  rw [unmarshalLoop.eq_def]
  simp only [hbe, Bool.false_eq_true, if_false]
  split
  · rename_i heq; simp [h1] at heq
  · rename_i id' r1' heq
    rw [h1] at heq
    simp only [Option.some.injEq, Prod.mk.injEq] at heq
    obtain ⟨rfl, rfl⟩ := heq
    split
    · rename_i heq2; simp [h2] at heq2
    · rename_i val' r2' heq2
      rw [h2] at heq2
      simp only [Option.some.injEq, Prod.mk.injEq] at heq2
      obtain ⟨rfl, rfl⟩ := heq2
      rfl

theorem pp_nil : parsePairs [] = some [] := by
  rw [parsePairs.eq_def]; simp

theorem pp_err1 {bytes : List Nat} (hne : bytes ≠ [])
    (h1 : readVarint bytes = none) : parsePairs bytes = none := by
  have hbe : bytes.isEmpty = false := by
    cases bytes
    · exact absurd rfl hne
    · rfl
  rw [parsePairs.eq_def]
  simp only [hbe, Bool.false_eq_true, if_false]
  split
  · rfl
  · rename_i id' r1' heq
    simp [h1] at heq

theorem pp_err2 {bytes r1 : List Nat} {id : Nat}
    (h1 : readVarint bytes = some (id, r1)) (h2 : readVarint r1 = none) :
    parsePairs bytes = none := by
  have hne : bytes ≠ [] := by rintro rfl; simp [readVarint] at h1
  have hbe : bytes.isEmpty = false := by
    cases bytes
    · exact absurd rfl hne
    · rfl
  rw [parsePairs.eq_def]
  simp only [hbe, Bool.false_eq_true, if_false]
  split
  · rename_i heq; simp [h1] at heq
  · rename_i id' r1' heq
    rw [h1] at heq
    simp only [Option.some.injEq, Prod.mk.injEq] at heq
    obtain ⟨rfl, rfl⟩ := heq
    split
    · rfl
    · rename_i val' r2' heq2
      simp [h2] at heq2

theorem pp_step {bytes r1 r2 : List Nat} {id val : Nat}
    (h1 : readVarint bytes = some (id, r1)) (h2 : readVarint r1 = some (val, r2)) :
    parsePairs bytes = (parsePairs r2).map fun l => (id, val) :: l := by
  have hne : bytes ≠ [] := by rintro rfl; simp [readVarint] at h1
  have hbe : bytes.isEmpty = false := by
    cases bytes
    · exact absurd rfl hne
    · rfl
  rw [parsePairs.eq_def]
  simp only [hbe, Bool.false_eq_true, if_false]
  split
  · rename_i heq; simp [h1] at heq
  · rename_i id' r1' heq
    rw [h1] at heq
    simp only [Option.some.injEq, Prod.mk.injEq] at heq
    obtain ⟨rfl, rfl⟩ := heq
    split
    · rename_i heq2; simp [h2] at heq2
    · rename_i val' r2' heq2
      rw [h2] at heq2
      simp only [Option.some.injEq, Prod.mk.injEq] at heq2
      obtain ⟨rfl, rfl⟩ := heq2
      rfl

/-! ## Helper lemmas: the `UnmarshalFrame` loop never touches the caller's
map once the local handle is rebound, and otherwise behaves like the
`ReadSettingsFrame` loop on the fresh map -/

theorem unmarshalLoop_fresh :
    ∀ (n : Nat) (bytes : List Nat), bytes.length ≤ n → ∀ (cm c : SettingsL),
      (unmarshalLoop ⟨cm, .fresh c⟩ bytes).1.callerMap = cm
      ∧ (unmarshalLoop ⟨cm, .fresh c⟩ bytes).2 = errOpt (readSettingsLoop bytes c) := by
  intro n
  induction n with
  | zero =>
    intro bytes hb cm c
    have hbe : bytes = [] := List.eq_nil_of_length_eq_zero (Nat.le_zero.mp hb)
    subst hbe
    rw [uml_nil, rsl_nil]; exact ⟨rfl, rfl⟩
  | succ n ih =>
    intro bytes hb cm c
    by_cases hne : bytes = []
    · subst hne; rw [uml_nil, rsl_nil]; exact ⟨rfl, rfl⟩
    · cases h1 : readVarint bytes with
      | none => rw [uml_err1 hne h1, rsl_err1 hne h1]; exact ⟨rfl, rfl⟩
      | some pr =>
        obtain ⟨id, r1⟩ := pr
        cases h2 : readVarint r1 with
        | none => rw [uml_err2 h1 h2, rsl_err2 h1 h2]; exact ⟨rfl, rfl⟩
        | some pr2 =>
          obtain ⟨val, r2⟩ := pr2
          rw [uml_step h1 h2, rsl_step h1 h2]
          have hloc : readLocal ⟨cm, .fresh c⟩ = c := rfl
          have hwl : writeLocal ⟨cm, .fresh c⟩ id val = ⟨cm, .fresh (mapSet c id val)⟩ := rfl
          rw [hloc, hwl]
          by_cases hdup : (List.lookup id c).isSome
          · simp [hdup, errOpt]
          · simp only [hdup, if_false, Bool.false_eq_true]
            have hr2 : r2.length ≤ n := by
              have ha := readVarint_lt h1
              have hb2 := readVarint_lt h2
              have : bytes.length ≤ n + 1 := hb
              omega
            exact ih r2 hr2 cm (mapSet c id val)

/-- `Settings.UnmarshalFrame` leaves the caller's map exactly as it was:
once the local handle is rebound to a fresh map, every write lands there. -/
theorem unmarshalFrame_callerMap (receiver : SettingsL) (b : List Nat) :
    (unmarshalFrame receiver b).1.callerMap = receiver := by
  unfold unmarshalFrame
  split
  · rfl
  · exact (unmarshalLoop_fresh b.length b le_rfl receiver []).1

/-- Under the size cap, the error behavior of `UnmarshalFrame` equals that
of the `ReadSettingsFrame` loop started on an empty map. -/
theorem unmarshalFrame_err (receiver : SettingsL) (b : List Nat)
    (hlen : ¬ b.length > 8 * 1024) :
    (unmarshalFrame receiver b).2 = errOpt (readSettingsLoop b []) := by
  unfold unmarshalFrame
  rw [if_neg hlen]
  exact (unmarshalLoop_fresh b.length b le_rfl receiver []).2

/-! ## Helper lemmas: duplicate detection and key uniqueness of the decode
loop -/

theorem readSettingsLoop_nodup :
    ∀ (n : Nat) (bytes : List Nat), bytes.length ≤ n → ∀ (acc s : SettingsL),
      (acc.map Prod.fst).Nodup → readSettingsLoop bytes acc = .ok s →
      (s.map Prod.fst).Nodup := by
  intro n
  induction n with
  | zero =>
    intro bytes hb acc s hacc hok
    have hbe : bytes = [] := List.eq_nil_of_length_eq_zero (Nat.le_zero.mp hb)
    subst hbe
    rw [rsl_nil] at hok
    cases hok; exact hacc
  | succ n ih =>
    intro bytes hb acc s hacc hok
    by_cases hne : bytes = []
    · subst hne; rw [rsl_nil] at hok; cases hok; exact hacc
    · cases h1 : readVarint bytes with
      | none => rw [rsl_err1 hne h1] at hok; cases hok
      | some pr =>
        obtain ⟨id, r1⟩ := pr
        cases h2 : readVarint r1 with
        | none => rw [rsl_err2 h1 h2] at hok; cases hok
        | some pr2 =>
          obtain ⟨val, r2⟩ := pr2
          rw [rsl_step h1 h2] at hok
          by_cases hdup : (List.lookup id acc).isSome
          · rw [if_pos hdup] at hok; cases hok
          · rw [if_neg hdup] at hok
            have hdup' : (List.lookup id acc).isSome = false :=
              Bool.eq_false_iff.mpr hdup
            rw [mapSet_lookup_none hdup' val] at hok
            have hid : id ∉ acc.map Prod.fst := by
              rw [← lookup_isSome_iff]; exact hdup
            have hacc' : ((acc ++ [(id, val)]).map Prod.fst).Nodup := by
              simp only [List.map_append, List.map_cons, List.map_nil]
              rw [List.nodup_append]
              exact ⟨hacc, List.nodup_singleton id, by simpa using hid⟩
            have hr2 : r2.length ≤ n := by
              have ha := readVarint_lt h1
              have hb2 := readVarint_lt h2
              have : bytes.length ≤ n + 1 := hb
              omega
            exact ih r2 hr2 (acc ++ [(id, val)]) s hacc' hok

theorem readSettingsLoop_dup :
    ∀ (n : Nat) (bytes : List Nat), bytes.length ≤ n →
      ∀ (acc : SettingsL) (l : List (Nat × Nat)),
      parsePairs bytes = some l → (acc.map Prod.fst).Nodup →
      ¬ ((acc.map Prod.fst ++ l.map Prod.fst).Nodup) →
      ∃ i, readSettingsLoop bytes acc = .error (.duplicate i) := by
  intro n
  induction n with
  | zero =>
    intro bytes hb acc l hpp hacc hnd
    have hbe : bytes = [] := List.eq_nil_of_length_eq_zero (Nat.le_zero.mp hb)
    subst hbe
    rw [pp_nil] at hpp
    cases hpp
    simp only [List.map_nil, List.append_nil] at hnd
    exact absurd hacc hnd
  | succ n ih =>
    intro bytes hb acc l hpp hacc hnd
    by_cases hne : bytes = []
    · subst hne
      rw [pp_nil] at hpp
      cases hpp
      simp only [List.map_nil, List.append_nil] at hnd
      exact absurd hacc hnd
    · cases h1 : readVarint bytes with
      | none => rw [pp_err1 hne h1] at hpp; cases hpp
      | some pr =>
        obtain ⟨id, r1⟩ := pr
        cases h2 : readVarint r1 with
        | none => rw [pp_err2 h1 h2] at hpp; cases hpp
        | some pr2 =>
          obtain ⟨val, r2⟩ := pr2
          rw [pp_step h1 h2] at hpp
          cases hpp2 : parsePairs r2 with
          | none => rw [hpp2] at hpp; cases hpp
          | some l2 =>
            rw [hpp2] at hpp
            simp only [Option.map_some'] at hpp
            cases hpp
            rw [rsl_step h1 h2]
            by_cases hdup : (List.lookup id acc).isSome
            · exact ⟨id, by rw [if_pos hdup]⟩
            · rw [if_neg hdup]
              have hdup' : (List.lookup id acc).isSome = false :=
                Bool.eq_false_iff.mpr hdup
              rw [mapSet_lookup_none hdup' val]
              have hid : id ∉ acc.map Prod.fst := by
                rw [← lookup_isSome_iff]; exact hdup
              have hacc' : ((acc ++ [(id, val)]).map Prod.fst).Nodup := by
                simp only [List.map_append, List.map_cons, List.map_nil]
                rw [List.nodup_append]
                exact ⟨hacc, List.nodup_singleton id, by simpa using hid⟩
              have hnd' : ¬ (((acc ++ [(id, val)]).map Prod.fst ++ l2.map Prod.fst).Nodup) := by
                intro hcon
                apply hnd
                simp only [List.map_append, List.map_cons, List.map_nil] at hcon ⊢
                simpa using hcon
              have hr2 : r2.length ≤ n := by
                have ha := readVarint_lt h1
                have hb2 := readVarint_lt h2
                have : bytes.length ≤ n + 1 := hb
                omega
              exact ih r2 hr2 (acc ++ [(id, val)]) l2 hpp2 hacc' hnd'

/-! ## Helper lemmas: the incoming-stream handler and the reserved slots -/

theorem closeWithError_peerStreams (c : ConnSt) (k : Nat) (m : CloseMsg) :
    (closeWithError c k m).peerStreams = c.peerStreams := by
  unfold closeWithError; split <;> rfl

theorem closeWithError_closed_none {c : ConnSt} (h : c.closed = none)
    (k : Nat) (m : CloseMsg) :
    (closeWithError c k m).closed = some (k, m) := by
  unfold closeWithError
  rw [h]
  rfl

theorem handleControlStream_peerStreams (c : ConnSt) (f : FrameParseRes) :
    (handleControlStream c f).peerStreams = c.peerStreams := by
  cases f with
  | parseErr => exact closeWithError_peerStreams c errorFrameError .empty
  | notSettings =>
    show (closeWithError c errorMissingSettings .empty).peerStreams = _
    exact closeWithError_peerStreams ..
  | settings s =>
    simp only [handleControlStream]
    split
    · exact closeWithError_peerStreams ..
    · rfl

theorem dispatchTyped_peerStreams (c : ConnSt) (str : RecStream) (rest : List Nat) :
    (dispatchTyped c str rest).peerStreams = c.peerStreams := by
  unfold dispatchTyped
  split
  · exact handleControlStream_peerStreams ..
  · split
    · split
      · exact closeWithError_peerStreams ..
      · rfl
    · split
      · rfl
      · rfl

/-- An occupied reserved slot survives any single handler invocation. -/
theorem handle_preserve (c : ConnSt) (sid : Nat) (bytes : List Nat) (u : Nat)
    (hu : (c.peerStreams u).isSome) :
    (handleIncomingUniStream c sid bytes).peerStreams u = c.peerStreams u := by
  cases h1 : readVarint bytes with
  | none => simp [handleIncomingUniStream, h1]
  | some pr =>
    obtain ⟨t, rest⟩ := pr
    simp only [handleIncomingUniStream, h1]
    split
    · split
      · rw [closeWithError_peerStreams]
      · rename_i hfree
        rw [dispatchTyped_peerStreams]
        have hut : ¬ u = t := by
          intro he
          rw [he] at hu
          exact hfree hu
        simp [hut]
    · rw [dispatchTyped_peerStreams]

/-- A second incoming stream of an occupied reserved type takes exactly
the duplicate-slot close path. -/
theorem handle_dup {bytes rest : List Nat} {t : Nat} (c : ConnSt) (sid : Nat)
    (h1 : readVarint bytes = some (t, rest)) (h4 : t < 4)
    (hocc : (c.peerStreams t).isSome) :
    handleIncomingUniStream c sid bytes
      = closeWithError c errorStreamCreationError (.moreThanOne t) := by
  simp [handleIncomingUniStream, h1, h4, hocc]

/-! ## Claim C10 -/

/-- C10: for every receiver mapping and every input byte slice,
`Settings.UnmarshalFrame` leaves the caller's entries exactly as they were,
whether it returns nil or an error: the method rebinds only its local map
handle and never writes through to the caller's mapping. -/
theorem c10_receiver_unchanged (receiver : SettingsL) (b : List Nat) :
    (unmarshalFrame receiver b).1.callerMap = receiver :=
  unmarshalFrame_callerMap receiver b

/-! ## Claim C3 -/

/-- C3: a Settings payload longer than 8 KiB (8192 bytes) is rejected by
both decode entry points before any id/value pair is parsed:
`UnmarshalFrame` returns the size error with the memory untouched (the
local handle still bound to the caller's map), and `ReadSettingsFrame`
returns the size error with the reader unconsumed. -/
theorem c3_size_cap (receiver : SettingsL) (b : List Nat) (stream : List Nat) (l : Nat) :
    (b.length > 8192 →
      unmarshalFrame receiver b = (⟨receiver, .caller⟩, some (.frameSize b.length)))
    ∧ (l > 8192 →
      readSettingsFrame stream l = (stream, .error (.frameSize l))) := by
  constructor
  · intro h
    unfold unmarshalFrame
    rw [if_pos (by omega : b.length > 8 * 1024)]
  · intro h
    unfold readSettingsFrame
    rw [if_pos (by omega : l > 8 * 1024)]

/-- The size cap fires on a concrete 8193-byte payload and on a declared
length of 8193. -/
theorem c3_size_cap_witness :
    unmarshalFrame [] (List.replicate 8193 0)
      = (⟨[], .caller⟩, some (.frameSize 8193))
    ∧ readSettingsFrame [] 8193 = ([], .error (.frameSize 8193)) := by
  have h := c3_size_cap [] (List.replicate 8193 0) [] 8193
  constructor
  · have h1 := h.1 (by rw [List.length_replicate]; omega)
    rw [List.length_replicate] at h1
    exact h1
  · exact h.2 (by omega)

/-! ## Claim C2 -/

/-- C2 (amended): for payloads within the 8 KiB cap, a payload whose pair
sequence repeats a setting id makes both decode entry points fail with the
duplicate-setting error rather than keeping the last value; and a mapping
successfully returned by `ReadSettingsFrame` never contains a duplicate
key. -/
theorem c2_duplicate_rejection (b : List Nat) (l : List (Nat × Nat))
    (receiver : SettingsL) (stream : List Nat) (n : Nat) (s : SettingsL) :
    (b.length ≤ 8192 → parsePairs b = some l → ¬ (l.map Prod.fst).Nodup →
      (∃ i, (unmarshalFrame receiver b).2 = some (.duplicate i))
      ∧ (∃ i, (readSettingsFrame b b.length).2 = .error (.duplicate i)))
    ∧ ((readSettingsFrame stream n).2 = .ok s → (s.map Prod.fst).Nodup) := by
  constructor
  · intro hlen hpp hnd
    obtain ⟨i, hi⟩ := readSettingsLoop_dup b.length b le_rfl [] l hpp (by simp)
      (by simpa using hnd)
    constructor
    · refine ⟨i, ?_⟩
      rw [unmarshalFrame_err receiver b (by omega), hi]
      rfl
    · refine ⟨i, ?_⟩
      unfold readSettingsFrame
      rw [if_neg (by omega), if_neg (by omega : ¬ b.length < b.length)]
      show readSettingsLoop (b.take b.length) [] = .error (.duplicate i)
      rw [List.take_length]
      exact hi
  · intro hok
    unfold readSettingsFrame at hok
    by_cases h1 : n > 8 * 1024
    · rw [if_pos h1] at hok
      exact absurd hok (by simp)
    · rw [if_neg h1] at hok
      by_cases h2 : stream.length < n
      · rw [if_pos h2] at hok
        exact absurd hok (by simp)
      · rw [if_neg h2] at hok
        exact readSettingsLoop_nodup (stream.take n).length (stream.take n) le_rfl
          [] s (by simp) hok

/-- Duplicate rejection fires on the concrete 4-byte payload encoding the
pairs (1, 5) and (1, 6). -/
theorem c2_duplicate_rejection_witness :
    (∃ i, (unmarshalFrame [] [1, 5, 1, 6]).2 = some (.duplicate i))
    ∧ (∃ i, (readSettingsFrame [1, 5, 1, 6] 4).2 = .error (.duplicate i)) := by
  have e1 : readVarint [1, 5, 1, 6] = some (1, [5, 1, 6]) := rfl
  have e2 : readVarint [5, 1, 6] = some (5, [1, 6]) := rfl
  have e3 : readVarint [1, 6] = some (1, [6]) := rfl
  have e4 : readVarint [6] = some (6, []) := rfl
  have hpp : parsePairs [1, 5, 1, 6] = some [(1, 5), (1, 6)] := by
    rw [pp_step e1 e2, pp_step e3 e4, pp_nil]
    rfl
  have hnd : ¬ (([(1, 5), (1, 6)] : List (Nat × Nat)).map Prod.fst).Nodup := by
    decide
  exact (c2_duplicate_rejection [1, 5, 1, 6] [(1, 5), (1, 6)] [] [] 0 []).1
    (by norm_num) hpp hnd

/-- The duplicated big payload of the C2 counterexample: 4097 copies of
the pair bytes (0, 0), 8194 bytes in total. -/
def c2BigPayload : List Nat := (List.replicate 4097 ([0, 0] : List Nat)).flatten

theorem parsePairs_zeros (n : Nat) :
    parsePairs (List.replicate n ([0, 0] : List Nat)).flatten
      = some (List.replicate n ((0 : Nat), (0 : Nat))) := by
  induction n with
  | zero => simpa using pp_nil
  | succ k ih =>
    have hflat : (List.replicate (k + 1) ([0, 0] : List Nat)).flatten
        = 0 :: 0 :: (List.replicate k ([0, 0] : List Nat)).flatten := by
      simp [List.replicate_succ]
    rw [hflat]
    have e1 : readVarint (0 :: 0 :: (List.replicate k ([0, 0] : List Nat)).flatten)
        = some (0, 0 :: (List.replicate k ([0, 0] : List Nat)).flatten) := rfl
    have e2 : readVarint (0 :: (List.replicate k ([0, 0] : List Nat)).flatten)
        = some (0, (List.replicate k ([0, 0] : List Nat)).flatten) := rfl
    rw [pp_step e1 e2, ih]
    simp [List.replicate_succ]

theorem c2BigPayload_length : c2BigPayload.length = 8194 := by
  have h : ∀ k, ((List.replicate k ([0, 0] : List Nat)).flatten).length = 2 * k := by
    intro k
    induction k with
    | zero => rfl
    | succ j ih => simp [List.replicate_succ, ih]; omega
  have h4 := h 4097
  unfold c2BigPayload
  omega

/-- C2 counterexample: an 8194-byte payload whose pair sequence repeats id
0 throughout is rejected by both entry points with the SIZE error, not the
duplicate-setting error the claim promises for every payload containing a
repeated id. -/
theorem c2_oversized_duplicate_counterexample :
    parsePairs c2BigPayload = some (List.replicate 4097 ((0 : Nat), (0 : Nat)))
    ∧ ¬ ((List.replicate 4097 ((0 : Nat), (0 : Nat))).map Prod.fst).Nodup
    ∧ (unmarshalFrame [] c2BigPayload).2 = some (.frameSize 8194)
    ∧ (readSettingsFrame c2BigPayload 8194).2 = .error (.frameSize 8194) := by
  refine ⟨parsePairs_zeros 4097, ?_, ?_, ?_⟩
  · rw [List.map_replicate, List.nodup_replicate]
    omega
  · unfold unmarshalFrame
    rw [if_pos (by rw [c2BigPayload_length]; omega)]
    simp [c2BigPayload_length]
  · unfold readSettingsFrame
    rw [if_pos (by omega : (8194 : Nat) > 8 * 1024)]

/-! ## Claim C1 -/

/-- C1: the round trip fails through `Settings.UnmarshalFrame`: encoding
the one-entry mapping with id 1 and value 42 yields the payload bytes
[1, 42]; unmarshalling that payload into an empty receiver map reports
success, but the decoded pair lands in the rebound fresh map and the
caller's mapping stays empty — not equal to the original mapping — while
`ReadSettingsFrame` on the same payload with its declared length does
return the original pairs. -/
theorem c1_unmarshal_roundtrip_bug :
    settingsFramePayload [(1, 42)] = [1, 42]
    ∧ unmarshalFrame [] [1, 42] = (⟨[], .fresh [(1, 42)]⟩, none)
    ∧ (⟨[], .fresh [(1, 42)]⟩ : UFState).callerMap ≠ [(1, 42)]
    ∧ readSettingsFrame [1, 42] 2 = ([], .ok [(1, 42)]) := by
  have e1 : readVarint [1, 42] = some (1, [42]) := rfl
  have e2 : readVarint [42] = some (42, []) := rfl
  refine ⟨rfl, ?_, by simp, ?_⟩
  · unfold unmarshalFrame
    rw [if_neg (by norm_num)]
    rw [uml_step e1 e2, if_neg (by decide), uml_nil]
    rfl
  · unfold readSettingsFrame
    rw [if_neg (by norm_num), if_neg (by decide)]
    have ht : ([1, 42] : List Nat).take 2 = [1, 42] := rfl
    have hd : ([1, 42] : List Nat).drop 2 = [] := rfl
    rw [ht, hd, rsl_step e1 e2, if_neg (by decide), rsl_nil]
    rfl

/-! ## Claim C4 -/

/-- C4: `Settings.WriteFrame` does not emit pairs in ascending id order
and its output is not a function of the mapping's contents alone: the
`sort.Slice` comparator compares the slice indices `i < j`, never the ids,
so the emission order is the map-iteration order, and two iteration orders
of the same two-entry mapping produce different byte sequences (one of
them with the ids descending). -/
theorem c4_write_order_bug :
    settingsWriteFrame [(2, 0), (1, 0)] = [4, 4, 2, 0, 1, 0]
    ∧ settingsWriteFrame [(1, 0), (2, 0)] = [4, 4, 1, 0, 2, 0]
    ∧ settingsWriteFrame [(2, 0), (1, 0)] ≠ settingsWriteFrame [(1, 0), (2, 0)] := by
  refine ⟨rfl, rfl, by decide⟩

/-! ## Claim C5 -/

/-- C5 counterexample: an incoming unidirectional stream whose type prefix
resolves to Push (1) on a freshly opened client connection does not close
the connection at all — the code's client-side push handling is a TODO —
contradicting the claimed id-error closure; the stream is recorded in the
push slot instead. -/
theorem c5_client_push_counterexample :
    readVarint [1] = some (1, [])
    ∧ (handleIncomingUniStream clientConn 3 [1]).closed = none
    ∧ (handleIncomingUniStream clientConn 3 [1]).peerStreams 1 = some ⟨3, 1⟩ :=
  ⟨rfl, rfl, rfl⟩

/-- C5 (amended): a push-typed incoming stream closes a server connection
with stream-creation-error (the spurious-push diagnostic, or the
duplicate-slot diagnostic when the push slot was already taken); on a
client connection with a free push slot the stream is recorded in the slot
and the connection stays open — push handling is unimplemented and no
id-error closure occurs. -/
theorem dispatchTyped_push (c : ConnSt) (sid : Nat) (rest : List Nat) :
    dispatchTyped c ⟨sid, 1⟩ rest
      = if c.isServer then
          closeWithError c errorStreamCreationError (.spuriousPush 1)
        else c := by
  unfold dispatchTyped
  norm_num

/-- With a free slot, the handler records the stream and dispatches. -/
theorem handle_fresh {bytes rest : List Nat} {t : Nat} (c : ConnSt) (sid : Nat)
    (h1 : readVarint bytes = some (t, rest)) (h4 : t < 4)
    (hfree : (c.peerStreams t).isSome = false) :
    handleIncomingUniStream c sid bytes
      = dispatchTyped
          { c with peerStreams := fun u => if u = t then some ⟨sid, t⟩ else c.peerStreams u }
          ⟨sid, t⟩ rest := by
  simp [handleIncomingUniStream, h1, h4, hfree]

theorem c5_push_dispatch (c : ConnSt) (sid : Nat) (bytes rest : List Nat)
    (h1 : readVarint bytes = some (1, rest)) (hopen : c.closed = none) :
    (c.isServer = true →
      ∃ m, (handleIncomingUniStream c sid bytes).closed
        = some (errorStreamCreationError, m))
    ∧ (c.isServer = false → c.peerStreams 1 = none →
      (handleIncomingUniStream c sid bytes).closed = none
      ∧ (handleIncomingUniStream c sid bytes).peerStreams 1 = some ⟨sid, 1⟩) := by
  constructor
  · intro hsrv
    by_cases hocc : (c.peerStreams 1).isSome
    · rw [handle_dup c sid h1 (by norm_num) hocc]
      exact ⟨.moreThanOne 1, closeWithError_closed_none hopen ..⟩
    · refine ⟨.spuriousPush 1, ?_⟩
      rw [handle_fresh c sid h1 (by norm_num) (by simpa using hocc), dispatchTyped_push]
      have hsrv' : ({ c with peerStreams :=
          fun u => if u = 1 then some ⟨sid, 1⟩ else c.peerStreams u } : ConnSt).isServer
            = true := hsrv
      rw [if_pos hsrv']
      have hopen' : ({ c with peerStreams :=
          fun u => if u = 1 then some ⟨sid, 1⟩ else c.peerStreams u } : ConnSt).closed
            = none := hopen
      exact closeWithError_closed_none hopen' ..
  · intro hcli hfree
    rw [handle_fresh c sid h1 (by norm_num) (by simp [hfree]), dispatchTyped_push]
    have hcli' : ¬ ({ c with peerStreams :=
        fun u => if u = 1 then some ⟨sid, 1⟩ else c.peerStreams u } : ConnSt).isServer
          = true := by
      simp [hcli]
    rw [if_neg hcli']
    exact ⟨hopen, by simp⟩

/-- The amended push behavior at concrete inputs: a fresh server
connection closes on the push prefix byte [1]; a fresh client connection
stays open and records stream 9 in the push slot. -/
theorem c5_push_dispatch_witness :
    (∃ m, (handleIncomingUniStream serverConn 9 [1]).closed
      = some (errorStreamCreationError, m))
    ∧ ((handleIncomingUniStream clientConn 9 [1]).closed = none
      ∧ (handleIncomingUniStream clientConn 9 [1]).peerStreams 1 = some ⟨9, 1⟩) :=
  ⟨(c5_push_dispatch serverConn 9 [1] [] rfl rfl).1 rfl,
   (c5_push_dispatch clientConn 9 [1] [] rfl rfl).2 rfl rfl⟩

/-! ## Claim C6 -/

/-- C6: at most one incoming stream per reserved type is ever recorded: an
occupied reserved slot survives any handler invocation (and any sequence
of them) unchanged, and an incoming stream declaring an occupied reserved
type closes the whole connection with stream-creation-error and the
diagnostic naming the duplicated type, without recording the later
stream. -/
theorem c6_reserved_slot_exclusive (c : ConnSt) (sid : Nat) (bytes : List Nat) :
    (∀ u, (c.peerStreams u).isSome →
      (handleIncomingUniStream c sid bytes).peerStreams u = c.peerStreams u)
    ∧ (∀ t rest, readVarint bytes = some (t, rest) → t < 4 →
        (c.peerStreams t).isSome → c.closed = none →
        (handleIncomingUniStream c sid bytes).closed
          = some (errorStreamCreationError, .moreThanOne t)
        ∧ ∀ u, (handleIncomingUniStream c sid bytes).peerStreams u = c.peerStreams u)
    ∧ (∀ (inputs : List (Nat × List Nat)) u, (c.peerStreams u).isSome →
        (inputs.foldl (fun st p => handleIncomingUniStream st p.1 p.2) c).peerStreams u
          = c.peerStreams u) := by
  refine ⟨handle_preserve c sid bytes, ?_, ?_⟩
  · intro t rest h1 h4 hocc hopen
    rw [handle_dup c sid h1 h4 hocc]
    constructor
    · exact closeWithError_closed_none hopen ..
    · intro u
      rw [closeWithError_peerStreams]
  · intro inputs
    induction inputs generalizing c with
    | nil => intro u hu; rfl
    | cons p ps ih =>
      intro u hu
      have hstep := handle_preserve c p.1 p.2 u hu
      have hu' : ((handleIncomingUniStream c p.1 p.2).peerStreams u).isSome := by
        rw [hstep]; exact hu
      calc (ps.foldl (fun st q => handleIncomingUniStream st q.1 q.2)
              (handleIncomingUniStream c p.1 p.2)).peerStreams u
          = (handleIncomingUniStream c p.1 p.2).peerStreams u := ih _ u hu'
        _ = c.peerStreams u := hstep

/-- The duplicate-slot closure at a concrete input: a second control
stream (prefix byte [0]) on a connection whose control slot holds stream 7
closes the connection naming type 0 and leaves the slot holding stream
7. -/
theorem c6_reserved_slot_exclusive_witness :
    (handleIncomingUniStream connWithControl 9 [0]).closed
      = some (errorStreamCreationError, .moreThanOne 0)
    ∧ (handleIncomingUniStream connWithControl 9 [0]).peerStreams 0 = some ⟨7, 0⟩ := by
  have h := (c6_reserved_slot_exclusive connWithControl 9 [0]).2.1 0 [] rfl
    (by norm_num) rfl rfl
  exact ⟨h.1, (h.2 0).trans rfl⟩

/-! ## Claim C7 -/

/-- C7: on both negotiation-failure paths the connection is closed with
the named code (missing-settings for a non-Settings first frame,
settings-error for the datagram mismatch) and the error is recorded in
`peerSettingsErr` — but the one-shot done signal is never fired, so a
subsequent `PeerSettings()` call selects the session-context cancellation
case and returns the generic context error, never the recorded negotiation
error. -/
theorem c7_peer_settings_error_lost :
    ((handleControlStream clientConn .notSettings).closed
        = some (errorMissingSettings, .empty)
      ∧ (handleControlStream clientConn .notSettings).peerSettingsErr
        = some errorMissingSettings
      ∧ (handleControlStream clientConn .notSettings).peerSettingsDone = false
      ∧ peerSettingsCall (handleControlStream clientConn .notSettings)
        = some .ctxError)
    ∧ ((handleControlStream clientConn (.settings [(settingDatagram, 1)])).closed
        = some (errorSettingsError, .missingDatagrams)
      ∧ (handleControlStream clientConn (.settings [(settingDatagram, 1)])).peerSettingsErr
        = some errorSettingsError
      ∧ (handleControlStream clientConn (.settings [(settingDatagram, 1)])).peerSettingsDone
        = false
      ∧ peerSettingsCall (handleControlStream clientConn (.settings [(settingDatagram, 1)]))
        = some .ctxError) := by
  refine ⟨⟨?_, ?_, ?_, ?_⟩, ⟨?_, ?_, ?_, ?_⟩⟩ <;> decide

/-! ## Claim C8 -/

/-- C8 counterexample: `AcceptStream` on an open client-perspective
connection with one pending incoming bidirectional stream returns that
stream wrapped — consuming it from the transport — rather than any
synchronous perspective error; with no pending stream it blocks; and
`OpenStream` on a server-perspective connection succeeds.  No perspective
guard exists on either entry point. -/
theorem c8_no_guard_counterexample :
    connAcceptStream clientConn [7] = ([], some (.ok ⟨7⟩))
    ∧ connAcceptStream clientConn [] = ([], none)
    ∧ connOpenStream serverConn 5 = .ok ⟨5⟩ :=
  ⟨rfl, rfl, rfl⟩

/-- C8 (amended): neither entry point checks the connection's perspective:
on every open connection, regardless of `isServer`, `AcceptStream`
delegates to the transport's accept — blocking while nothing is pending,
consuming and wrapping the next pending stream otherwise — and
`OpenStream` delegates to the transport's open and wraps its result; the
only errors returned are the transport's own. -/
theorem c8_no_perspective_guard (c : ConnSt) (i next : Nat) (rest : List Nat)
    (hopen : c.closed = none) :
    connAcceptStream c (i :: rest) = (rest, some (.ok ⟨i⟩))
    ∧ connAcceptStream c [] = ([], none)
    ∧ connOpenStream c next = .ok ⟨next⟩ := by
  have hcl : c.closed.isSome = false := by rw [hopen]; rfl
  refine ⟨?_, ?_, ?_⟩
  · unfold connAcceptStream sessionAcceptStream
    rw [hcl]
    rfl
  · unfold connAcceptStream sessionAcceptStream
    rw [hcl]
    rfl
  · unfold connOpenStream sessionOpenStream
    rw [hcl]
    rfl

/-- The delegation behavior at concrete inputs: a client accepts pending
stream 7, blocks on an empty queue, and a client also opens stream 5 —
no perspective error anywhere. -/
theorem c8_no_perspective_guard_witness :
    connAcceptStream clientConn [7] = ([], some (.ok ⟨7⟩))
    ∧ connAcceptStream clientConn [] = ([], none)
    ∧ connOpenStream clientConn 5 = .ok ⟨5⟩ :=
  c8_no_perspective_guard clientConn 7 5 [] rfl

/-! ## Claim C9 -/

/-- C9 counterexample: the concrete frameTypeError value (Want 4, Type 1,
Len 0) does not support unwrapping to an underlying cause: the type
declares no Unwrap method and carries no cause field, so Go's
errors.Unwrap yields nil. -/
theorem c9_frame_type_no_unwrap : errorsUnwrap (.frameTypeE 4 1 0) = none := rfl

/-- C9 (amended): all four error kinds render non-empty human-readable
messages via their Error methods; connError and streamError support
unwrapping to their wrapped cause; frameTypeError and frameLengthError
carry no cause and unwrapping them yields nothing. -/
theorem c9_error_values (a b ft cause : String) (n m code want typ len fl : Nat) :
    0 < (frameTypeErrorMsg a b).length
    ∧ 0 < (frameLengthErrorMsg ft n m).length
    ∧ 0 < (connErrorMsg code cause).length
    ∧ 0 < (streamErrorMsg code cause).length
    ∧ errorsUnwrap (.connE code cause) = some cause
    ∧ errorsUnwrap (.streamE code cause) = some cause
    ∧ errorsUnwrap (.frameTypeE want typ len) = none
    ∧ errorsUnwrap (.frameLengthE fl n m) = none := by
  refine ⟨?_, ?_, ?_, ?_, rfl, rfl, rfl, rfl⟩
  · unfold frameTypeErrorMsg
    rw [String.length_append, String.length_append, String.length_append]
    have hlit : 0 < ("unexpected frame type " : String).length := by decide
    omega
  · unfold frameLengthErrorMsg
    rw [String.length_append, String.length_append, String.length_append,
      String.length_append, String.length_append]
    have hlit : 0 < (" frame too large: " : String).length := by decide
    omega
  · unfold connErrorMsg
    rw [String.length_append, String.length_append, String.length_append]
    have hlit : 0 < ("connection error " : String).length := by decide
    omega
  · unfold streamErrorMsg
    rw [String.length_append, String.length_append, String.length_append]
    have hlit : 0 < ("stream error " : String).length := by decide
    omega

end HTTP3
